import Mathlib

/-!
Verification of the content-routing, retry-escalation and image-harvesting
logic of `src/scraper.py` (CloserlookAI/firecrawl-tool).

The Python functions are shallowly embedded as executable Lean definitions.
External effects (the Firecrawl scrape, the HTTP HEAD probe, the streamed
PDF download, file writes) are made explicit: each function takes the
outcome of its external calls as a parameter (`Option`/records) and returns,
besides its Python return value, a description of the observable effects it
performed (whether a network probe was issued, which file was written with
which content, how many scrape attempts were made).
-/

namespace Scraper

/-- Python's `str.lower()` restricted to its ASCII behaviour (all string
constants compared in the scraper are ASCII). -/
def lowerStr (s : String) : String := String.mk (s.toList.map Char.toLower)

/-- Contiguous-substring test on character lists: `containsSub s pat` is
`true` iff `pat` occurs contiguously inside `s` (Python's `pat in s`). -/
def containsSub (s pat : List Char) : Bool :=
  match s with
  | [] => pat.isEmpty
  | _ :: rest => pat.isPrefixOf s || containsSub rest pat

/-- Python's `pat in s` on strings (contiguous substring). -/
def strContains (s pat : String) : Bool := containsSub s.toList pat.toList

/-- Python's `s.endswith(suffix)`. -/
def strEndsWith (s suffix : String) : Bool := List.isSuffixOf suffix.toList s.toList

/-- Python's `s.startswith(pre)`. -/
def strStartsWith (s pre : String) : Bool := List.isPrefixOf pre.toList s.toList

theorem containsSub_iff_infix {s pat : List Char} :
    containsSub s pat = true ↔ pat <:+: s := by
  induction s with
  | nil =>
    simp only [containsSub, List.isEmpty_iff]
    exact ⟨fun h => h ▸ List.infix_rfl, List.eq_nil_of_infix_nil⟩
  | cons c rest ih =>
    simp [containsSub, List.infix_cons_iff, ih]

theorem strContains_iff {s pat : String} :
    strContains s pat = true ↔ pat.toList <:+: s.toList := containsSub_iff_infix

theorem strEndsWith_iff {s suffix : String} :
    strEndsWith s suffix = true ↔ suffix.toList <:+ s.toList := by
  simp [strEndsWith, List.isSuffixOf_iff_suffix]

/-- The whitespace class stripped by Python's `str.strip` and matched by
the regex `\s` (ASCII part; the scraper only handles ASCII names and
patterns). -/
def isSpaceChar (c : Char) : Bool :=
  c = ' ' || c = Char.ofNat 9 || c = Char.ofNat 10 || c = Char.ofNat 13 ||
    c = Char.ofNat 11 || c = Char.ofNat 12

/-- Python's `str.strip()`: drop whitespace from both ends. -/
def stripChars (cs : List Char) : List Char :=
  ((cs.dropWhile isSpaceChar).reverse.dropWhile isSpaceChar).reverse

/-- `_sanitize_company_name`: strip, replace spaces and slashes with
underscores, lower-case. -/
def sanitize_company_name (company_name : String) : String :=
  lowerStr (String.mk ((stripChars company_name.toList).map
    (fun c => if c = ' ' then '_' else if c = '/' then '_' else c)))

/-- The eleven indicator keywords of `_has_pipeline_indicators`. -/
def indicators : List String :=
  ["phase", "clinical", "study", "trial", "program", "candidate",
   "indication", "therapeutic", "mechanism", "target", "pipeline"]

/-- `_has_pipeline_indicators`: at least 3 of the indicator keywords occur in
the lower-cased markdown. -/
def has_pipeline_indicators (markdown : String) : Bool :=
  let markdown_lower := lowerStr markdown
  (indicators.countP (fun indicator => strContains markdown_lower indicator)) ≥ 3

/-- `is_pdf_url`, with external inputs made explicit.  `requestsAvailable`
models the module-level `REQUESTS_AVAILABLE` flag; `head` models the outcome
of the `requests.head` probe: `none` means the request raised (caught and
ignored by the function), `some ct` means it returned with content-type
header value `ct` (the empty string when the header is missing).  Returns
`(isPdf, headProbed)` where `headProbed` records whether the HEAD network
call was issued. -/
def is_pdf_url (requestsAvailable : Bool) (head : Option String) (url : String) :
    Bool × Bool :=
  let url_lower := lowerStr url
  if strEndsWith url_lower ".pdf" || strContains url_lower ".pdf?" ||
      strContains url_lower ".pdf&" then
    (true, false)
  else if !requestsAvailable then
    (false, false)
  else
    match head with
    | none => (false, true)
    | some ct =>
      let content_type := lowerStr ct
      if strContains content_type "pdf" || strContains content_type "application/pdf" then
        (true, true)
      else
        (false, true)

/-- The fixed image-extension list of `is_image_url`. -/
def image_extensions : List String :=
  [".png", ".jpg", ".jpeg", ".gif", ".webp", ".svg", ".bmp", ".tiff"]

/-- `is_image_url`: some image extension ends the lower-cased URL or occurs
followed by `?` or `&`. -/
def is_image_url (url : String) : Bool :=
  let url_lower := lowerStr url
  image_extensions.any (fun ext =>
    strEndsWith url_lower ext || strContains url_lower (ext ++ "?") ||
      strContains url_lower (ext ++ "&"))

/-- The three-way routing decision of `process_all_companies`. -/
inductive UrlClass
  | PDF
  | IMAGE
  | PAGE
deriving DecidableEq, Repr

/-- URL routing in `process_all_companies`: `is_pdf_url` first, then
`is_image_url`, else the generic web-page path. -/
def classify (requestsAvailable : Bool) (head : Option String) (url : String) :
    UrlClass :=
  if (is_pdf_url requestsAvailable head url).1 then UrlClass.PDF
  else if is_image_url url then UrlClass.IMAGE
  else UrlClass.PAGE

/-- Outcome of the `requests.get(url, stream=True)` call inside
`download_pdf`: HTTP status check result, content-type header, the chunks
yielded by `iter_content` before any stream error, and whether the stream
raised after those chunks. -/
structure GetResp where
  statusOk : Bool
  contentType : String
  chunks : List String
  streamError : Bool
deriving Repr, DecidableEq

/-- File name of the PDF saved by `download_pdf`
(`data/<safe>/<safe>_pipeline.pdf`). -/
def pdfFileName (company_name : String) : String :=
  let safe := sanitize_company_name company_name
  "data/" ++ safe ++ "/" ++ safe ++ "_pipeline.pdf"

/-- `download_pdf` with the network made explicit.  `get = none` models
`requests.get` raising (caught: the function returns `None` and no file was
opened).  On a good status the file is opened with mode `wb` (created
empty) and each chunk is written as it arrives from the stream; when the
stream raises mid-iteration the exception is caught and `None` returned,
but the partially-written file stays on disk.  Returns
`(return value of the function, content of the PDF file on disk, if the
file was created)`. -/
def download_pdf (requestsAvailable : Bool) (get : Option GetResp)
    (company_name : String) : Option String × Option String :=
  if !requestsAvailable then (none, none)
  else
    match get with
    | none => (none, none)
    | some resp =>
      if !resp.statusOk then (none, none)
      else
        let written := String.join resp.chunks
        if resp.streamError then (none, some written)
        else (some (pdfFileName company_name), some written)

/-- The fixed decorative-keyword list of `is_likely_pipeline_image`. -/
def skip_patterns : List String :=
  ["logo", "icon", "banner", "header", "footer",
   "favicon", "thumb", "avatar", "profile",
   "social", "badge", "button", "arrow"]

/-- The fixed content-keyword list of `is_likely_pipeline_image`. -/
def pipeline_patterns : List String :=
  ["pipeline", "program", "candidate", "product",
   "development", "clinical", "phase", "trial"]

def isAsciiDigit (c : Char) : Bool := '0' ≤ c && c ≤ '9'

/-- Match of the regex `\d\x7b4\x7d[-_]\d\x7b2\x7d` anchored at the head of
the list: four digits, `-` or `_`, two digits. -/
def dateAt : List Char → Bool
  | d1 :: d2 :: d3 :: d4 :: sep :: e1 :: e2 :: _ =>
    isAsciiDigit d1 && isAsciiDigit d2 && isAsciiDigit d3 && isAsciiDigit d4 &&
      (sep = '-' || sep = '_') && isAsciiDigit e1 && isAsciiDigit e2
  | _ => false

/-- `re.search` of the year-month pattern anywhere in the character list. -/
def hasDateMarker : List Char → Bool
  | [] => false
  | c :: rest => dateAt (c :: rest) || hasDateMarker rest

/-- The large-dimension markers checked by `is_likely_pipeline_image`. -/
def size_markers : List String := ["2000", "2400", "1920", "full", "large"]

/-- `is_likely_pipeline_image`: decorative keywords skip first, then the
positive keep rules, defaulting to keep. -/
def is_likely_pipeline_image (url : String) (alt_text : String) : Bool :=
  let url_lower := lowerStr url
  let alt_lower := lowerStr alt_text
  if skip_patterns.any (fun p => strContains url_lower p || strContains alt_lower p) then
    false
  else if pipeline_patterns.any (fun p => strContains url_lower p || strContains alt_lower p) then
    true
  else if hasDateMarker url.toList then
    true
  else if strEndsWith url_lower ".svg" then
    true
  else if size_markers.any (fun size => strContains url_lower size) then
    true
  else
    true

/-- An acquisition action attempted by `process_images_from_markdown` for
one kept image URL. -/
inductive AcqStep
  | download
  | screenshot
deriving DecidableEq, Repr

/-- The acquisition dispatch of `process_images_from_markdown` for one kept
image URL: the sequence of actions it attempts, given whether a direct
download would succeed (`downloadOk`). -/
def acquisition_steps (url : String) (downloadOk : Bool) : List AcqStep :=
  let url_lower := lowerStr url
  let is_svg := strEndsWith url_lower ".svg"
  let is_jpg_jpeg := strEndsWith url_lower ".jpg" || strEndsWith url_lower ".jpeg"
  let is_png := strEndsWith url_lower ".png"
  if is_svg then [AcqStep.screenshot]
  else if is_png then [AcqStep.download]
  else if is_jpg_jpeg then [AcqStep.download]
  else if downloadOk then [AcqStep.download]
  else [AcqStep.download, AcqStep.screenshot]

/-- Outcomes of the two possible Firecrawl invocations for one URL:
`fast` is the plain attempt, `enhanced` the `wait_for_dynamic` attempt
(scroll actions, 90 s timeout).  `none` models the SDK call raising;
`some md` models a response whose markdown field is `md` (the empty string
when the response has no markdown attribute). -/
structure ScrapeEnv where
  fast : Option String
  enhanced : Option String
deriving Repr, DecidableEq

/-- Observable outcome of one `scrape_url` call: the returned markdown, the
total number of Firecrawl attempts issued, and the file write performed
(path and content), if any. -/
structure ScrapeResult where
  markdown : String
  attempts : Nat
  written : Option (String × String)
deriving Repr, DecidableEq

/-- File name the scraped markdown is saved under (`data/<safe>.md`). -/
def mdFileName (company_name : String) : String :=
  "data/" ++ sanitize_company_name company_name ++ ".md"

/-- `scrape_url`: the fast attempt retries once, recursively, with
`wait_for_dynamic=True` when it raises or its markdown looks incomplete
(shorter than 500 characters or fewer than 3 indicator keywords); the
enhanced attempt never retries and maps an exception to empty text. -/
def scrape_url (env : ScrapeEnv) (company_name : String)
    (wait_for_dynamic : Bool) : ScrapeResult :=
  match wait_for_dynamic with
  | true =>
    match env.enhanced with
    | some markdown =>
      { markdown := markdown, attempts := 1,
        written := some (mdFileName company_name, markdown) }
    | none => { markdown := "", attempts := 1, written := none }
  | false =>
    match env.fast with
    | some markdown =>
      if markdown.length < 500 || !has_pipeline_indicators markdown then
        let retry := scrape_url env company_name true
        { retry with attempts := retry.attempts + 1 }
      else
        { markdown := markdown, attempts := 1,
          written := some (mdFileName company_name, markdown) }
    | none =>
      let retry := scrape_url env company_name true
      { retry with attempts := retry.attempts + 1 }
termination_by (if wait_for_dynamic then 0 else 1)
decreasing_by all_goals simp

/-- `process_company_async`: scrapes and reports success iff the returned
markdown is non-empty (Python truthiness of the string). -/
def process_company_async (env : ScrapeEnv) (company_name : String)
    (wait_for_dynamic : Bool) : Bool :=
  (scrape_url env company_name wait_for_dynamic).markdown != ""

/-- Maximal capture up to (and consuming) the first occurrence of `stop`;
fails when `stop` does not occur.  Models a regex run of
characters-other-than-`stop` followed by the literal `stop`. -/
def takeUntil (stop : Char) : List Char → Option (List Char × List Char)
  | [] => none
  | c :: rest =>
    if c = stop then some ([], rest)
    else
      match takeUntil stop rest with
      | some (cap, r) => some (c :: cap, r)
      | none => none

/-- One attempted match of extraction pattern 1 (markdown image syntax
`![alt](url)`) anchored at the head of the list: literal `![`, an alt text
of non-`]` characters, `](`, a non-empty url of non-`)` characters, `)`.
Returns `(url, alt text, rest after the match)`. -/
def tryMarkdownImage : List Char → Option (String × String × List Char)
  | '!' :: '[' :: rest =>
    match takeUntil ']' rest with
    | some (alt, r1) =>
      match r1 with
      | '(' :: r2 =>
        match takeUntil ')' r2 with
        | some (url, r3) =>
          if url.isEmpty then none
          else some (String.mk url, String.mk alt, r3)
        | none => none
      | _ => none
    | none => none
  | _ => none

/-- The `re.finditer` loop for pattern 1: attempt a match at every position,
emitting non-overlapping matches left to right.  The fuel starts at the
list length; every step either consumes the whole match or advances one
character, so the fuel covers every position the Python loop visits. -/
def scanMarkdownImages : Nat → List Char → List (String × String)
  | 0, _ => []
  | _, [] => []
  | fuel + 1, c :: rest =>
    match tryMarkdownImage (c :: rest) with
    | some (url, alt, remaining) => (url, alt) :: scanMarkdownImages fuel remaining
    | none => scanMarkdownImages fuel rest

/-- Quote characters accepted by extraction pattern 2 (`"` and the
apostrophe, written by code point). -/
def isQuote (c : Char) : Bool := c = Char.ofNat 34 || c = Char.ofNat 39

/-- Does `src=` (case-insensitively) start at offset `p` of the list? -/
def srcAt (rest : List Char) (p : Nat) : Bool :=
  match rest.drop p with
  | s :: r :: c :: e :: _ =>
    s.toLower = 's' && r.toLower = 'r' && c.toLower = 'c' && e = '='
  | _ => false

/-- A quoted attribute value: an opening quote, a non-empty run of
non-quote characters, a closing quote (either kind).  Returns the value
and the rest after the closing quote. -/
def tryQuotedValue (cs : List Char) : Option (List Char × List Char) :=
  match cs with
  | q :: rest =>
    if isQuote q then
      let value := rest.takeWhile (fun c => !isQuote c)
      let after := rest.drop value.length
      match after with
      | q2 :: rest2 =>
        if value.isEmpty then none
        else if isQuote q2 then some (value, rest2)
        else none
      | [] => none
    else none
  | [] => none

/-- Greedy search for the `src=` attribute inside an `<img` tag: pattern 2
puts a greedy one-or-more run of non-`>` characters before the literal
`src=`, so the regex engine takes the LAST position `p` (tried here from
high to low, `p ≥ 1`, `p` within the non-`>` prefix of length `preLen`)
at which `src=` is followed by a well-formed quoted value. -/
def findSrcValue (rest : List Char) (preLen : Nat) : Nat → Option (List Char × List Char)
  | 0 => none
  | p + 1 =>
    if p + 1 ≤ preLen && srcAt rest (p + 1) then
      match tryQuotedValue (rest.drop (p + 1 + 4)) with
      | some (value, after) => some (value, after)
      | none => findSrcValue rest preLen p
    else findSrcValue rest preLen p

/-- One attempted match of extraction pattern 2 (HTML `<img` tags,
case-insensitive) anchored at the head of the list.  After the quoted
`src` value the pattern ends with a greedy run of non-`>` characters
followed by an OPTIONAL `alt=...` group; because the greedy run always
reaches the next `>` (or the end of input) first and the pattern then
succeeds with the optional group empty, the alt group never participates
in a match — `scrape.py` therefore always falls back to the empty alt
text for this pattern — and the match extends to just before the next
`>`. -/
def tryImgTag (cs : List Char) : Option (String × List Char) :=
  match cs with
  | c0 :: c1 :: c2 :: c3 :: rest =>
    if c0 = '<' && c1.toLower = 'i' && c2.toLower = 'm' && c3.toLower = 'g' then
      let preLen := (rest.takeWhile (fun c => c ≠ '>')).length
      match findSrcValue rest preLen rest.length with
      | some (value, after) =>
        some (String.mk value, after.dropWhile (fun c => c ≠ '>'))
      | none => none
    else none
  | _ => none

/-- The `re.finditer` loop for pattern 2. -/
def scanImgTags : Nat → List Char → List String
  | 0, _ => []
  | _, [] => []
  | fuel + 1, c :: rest =>
    match tryImgTag (c :: rest) with
    | some (url, remaining) => url :: scanImgTags fuel remaining
    | none => scanImgTags fuel rest

/-- The character class of extraction pattern 3: anything except
whitespace, `<`, `>`, double quote, the two braces, `|`, backslash, `^`,
backquote, `[`, `]` (the excluded punctuation written by code point). -/
def allowedUrlChar (c : Char) : Bool :=
  !isSpaceChar c && c ≠ '<' && c ≠ '>' && c ≠ Char.ofNat 34 &&
    c ≠ Char.ofNat 123 && c ≠ Char.ofNat 125 && c ≠ '|' && c ≠ '\\' &&
    c ≠ '^' && c ≠ Char.ofNat 96 && c ≠ '[' && c ≠ ']'

/-- The extension alternation of pattern 3 (`png`, `jpg`, `jpeg`, `gif`,
`svg`, `webp`), case-insensitively, as a prefix of the list; returns the
length of the alternative that matches.  No alternative is a prefix of
another, so at most one matches at a given position. -/
def imageExtAt (cs : List Char) : Option Nat :=
  let ls := (cs.take 4).map Char.toLower
  if List.isPrefixOf ['p', 'n', 'g'] ls then some 3
  else if List.isPrefixOf ['j', 'p', 'g'] ls then some 3
  else if List.isPrefixOf ['j', 'p', 'e', 'g'] ls then some 4
  else if List.isPrefixOf ['g', 'i', 'f'] ls then some 3
  else if List.isPrefixOf ['s', 'v', 'g'] ls then some 3
  else if List.isPrefixOf ['w', 'e', 'b', 'p'] ls then some 4
  else none

/-- Greedy backtracking for pattern 3's tail: the one-or-more run of
allowed characters consumes `c` characters (tried from high to low,
`c ≥ 1`), after which a literal `.` and an image extension must follow
inside `R`.  Returns the total match length within `R`. -/
def findDotExt (R : List Char) : Nat → Option Nat
  | 0 => none
  | c + 1 =>
    match R.drop (c + 1) with
    | '.' :: restExt =>
      match imageExtAt restExt with
      | some extLen => some (c + 1 + 1 + extLen)
      | none => findDotExt R c
    | _ => findDotExt R c

/-- One attempted match of extraction pattern 3 (bare image URLs,
case-insensitive) anchored at the head of the list: literal `http`, an
optional `s`, `://`, then a greedy run of allowed characters backtracked
so that the match ends in `.` plus an image extension.  When the next
character after `http` is an `s` the regex commits to it: the backtracked
alternative (no `s`) would need a `:` where the `s` stands and always
fails.  Returns the matched URL (original casing) and the rest after the
match. -/
def tryBareImageUrl (cs : List Char) : Option (String × List Char) :=
  match cs with
  | h :: t1 :: t2 :: p :: rest =>
    if h.toLower = 'h' && t1.toLower = 't' && t2.toLower = 't' && p.toLower = 'p' then
      let scheme :=
        match rest with
        | s :: r => if s.toLower = 's' then ([s], r) else (([] : List Char), rest)
        | [] => ([], rest)
      match scheme.2 with
      | c1 :: c2 :: c3 :: rest3 =>
        if c1 = ':' && c2 = '/' && c3 = '/' then
          let R := rest3.takeWhile allowedUrlChar
          match findDotExt R R.length with
          | some mlen =>
            some (String.mk ([h, t1, t2, p] ++ scheme.1 ++ [c1, c2, c3] ++ R.take mlen),
                  rest3.drop mlen)
          | none => none
        else none
      | _ => none
    else none
  | _ => none

/-- The `re.finditer` loop for pattern 3. -/
def scanBareImageUrls : Nat → List Char → List String
  | 0, _ => []
  | _, [] => []
  | fuel + 1, c :: rest =>
    match tryBareImageUrl (c :: rest) with
    | some (url, remaining) => url :: scanBareImageUrls fuel remaining
    | none => scanBareImageUrls fuel rest

/-- Pattern-1 body of `find_images_in_markdown`: skip empty and `data:`
URLs, filter with `is_likely_pipeline_image`, append — with NO check
against URLs already collected. -/
def pass1Step (image_data : List (String × String)) (m : String × String) :
    List (String × String) :=
  if m.1 != "" && !strStartsWith m.1 "data:" then
    if is_likely_pipeline_image m.1 m.2 then image_data ++ [m]
    else image_data
  else image_data

/-- Pattern-2 body of `find_images_in_markdown`: skip empty and `data:`
URLs, skip URLs already collected, filter, append with the empty alt text
(the optional alt group of pattern 2 never participates in a match). -/
def pass2Step (image_data : List (String × String)) (url : String) :
    List (String × String) :=
  if url != "" && !strStartsWith url "data:" then
    if image_data.any (fun e => e.1 == url) then image_data
    else if is_likely_pipeline_image url "" then image_data ++ [(url, "")]
    else image_data
  else image_data

/-- Pattern-3 body of `find_images_in_markdown`: skip URLs already
collected, filter, append with the empty alt text. -/
def pass3Step (image_data : List (String × String)) (url : String) :
    List (String × String) :=
  if image_data.any (fun e => e.1 == url) then image_data
  else if is_likely_pipeline_image url "" then image_data ++ [(url, "")]
  else image_data

/-- State of `image_data` after the pattern-1 loop of
`find_images_in_markdown`. -/
def pass1Images (markdown : String) : List (String × String) :=
  (scanMarkdownImages markdown.toList.length markdown.toList).foldl pass1Step []

/-- `find_images_in_markdown`: the three extraction passes run in sequence
over the shared `image_data` accumulator. -/
def find_images_in_markdown (markdown : String) : List (String × String) :=
  let cs := markdown.toList
  let afterPass2 := (scanImgTags cs.length cs).foldl pass2Step (pass1Images markdown)
  (scanBareImageUrls cs.length cs).foldl pass3Step afterPass2

/-- The condition under which the fast scrape attempt escalates: the SDK
call raised, or the markdown it returned is shorter than 500 characters or
lacks 3 indicator keywords. -/
def fastLooksIncomplete : Option String → Bool
  | none => true
  | some markdown => markdown.length < 500 || !has_pipeline_indicators markdown

/-- Two suffixes of the same list that have the same length are equal. -/
theorem suffix_eq_of_length {l s1 s2 : List Char} (h1 : s1 <:+ l) (h2 : s2 <:+ l)
    (hlen : s1.length = s2.length) : s1 = s2 := by
  obtain ⟨a, ha⟩ := h1
  obtain ⟨b, hb⟩ := h2
  exact (List.append_inj' (ha.trans hb.symm) hlen).2

/-- C4: a URL whose lower-cased form ends in `.pdf` or contains `.pdf?` or
`.pdf&` is classified as PDF immediately, and no HEAD probe is issued,
whatever the probe would have answered. -/
theorem pdf_ext_no_probe (requestsAvailable : Bool) (head : Option String) (url : String)
    (h : strEndsWith (lowerStr url) ".pdf" = true ∨
      strContains (lowerStr url) ".pdf?" = true ∨
      strContains (lowerStr url) ".pdf&" = true) :
    is_pdf_url requestsAvailable head url = (true, false) := by
  unfold is_pdf_url
  rcases h with h | h | h <;> simp [h]

/-- Witness for C4 at a concrete URL with an upper-case extension and a
query string, with a probe oracle that would have answered non-PDF. -/
theorem pdf_ext_no_probe_witness :
    strContains (lowerStr "https://x.com/Report.PDF?dl=1") ".pdf?" = true ∧
    is_pdf_url true (some "text/html") "https://x.com/Report.PDF?dl=1" = (true, false) :=
  ⟨by decide,
   pdf_ext_no_probe true (some "text/html") "https://x.com/Report.PDF?dl=1"
     (Or.inr (Or.inl (by decide)))⟩

/-- C8: when the URL does not carry a `.pdf` extension and the HEAD probe
raises (modelled as `head = none`), `is_pdf_url` returns not-PDF; the
exception is swallowed — the embedding is a total function, so nothing
propagates to the caller. -/
theorem head_probe_failure_not_pdf (url : String)
    (h : (strEndsWith (lowerStr url) ".pdf" || strContains (lowerStr url) ".pdf?" ||
      strContains (lowerStr url) ".pdf&") = false) :
    is_pdf_url true none url = (false, true) := by
  unfold is_pdf_url
  simp [h]

/-- Witness for C8 at a concrete URL. -/
theorem head_probe_failure_not_pdf_witness :
    (strEndsWith (lowerStr "https://example.com/page") ".pdf" ||
      strContains (lowerStr "https://example.com/page") ".pdf?" ||
      strContains (lowerStr "https://example.com/page") ".pdf&") = false ∧
    is_pdf_url true none "https://example.com/page" = (false, true) :=
  ⟨by decide, head_probe_failure_not_pdf "https://example.com/page" (by decide)⟩

/-- C5 counterexample: `https://example.com/chart.png` satisfies the image
check, but when the HEAD probe (issued because the URL has no `.pdf`
extension) reports a PDF content type, routing classifies the URL as PDF,
not IMAGE — refuting the claim that every image-extension URL classifies
as IMAGE. -/
theorem image_url_classified_pdf :
    is_image_url "https://example.com/chart.png" = true ∧
    classify true (some "application/pdf") "https://example.com/chart.png" = UrlClass.PDF ∧
    classify true (some "application/pdf") "https://example.com/chart.png" ≠ UrlClass.IMAGE := by
  decide

/-- C5 amended: an image-extension URL is classified IMAGE whenever the
PDF check (which runs first) comes out false; and a URL with a `.pdf`
extension is always classified PDF, so it never reaches the image check. -/
theorem image_classification_amended (requestsAvailable : Bool) (head : Option String)
    (url : String) :
    (is_image_url url = true → (is_pdf_url requestsAvailable head url).1 = false →
      classify requestsAvailable head url = UrlClass.IMAGE) ∧
    (strEndsWith (lowerStr url) ".pdf" = true →
      classify requestsAvailable head url = UrlClass.PDF) := by
  constructor
  · intro himg hpdf
    unfold classify
    simp [hpdf, himg]
  · intro h
    unfold classify is_pdf_url
    simp [h]

/-- Witness for C5 amended: a `.png` URL whose probe reports an image
content type is classified IMAGE, and a `.pdf` URL is classified PDF. -/
theorem image_classification_amended_witness :
    is_image_url "https://x.com/a.png" = true ∧
    classify true (some "image/png") "https://x.com/a.png" = UrlClass.IMAGE ∧
    classify true none "https://y.com/f.pdf" = UrlClass.PDF :=
  ⟨by decide,
   (image_classification_amended true (some "image/png") "https://x.com/a.png").1
     (by decide) (by decide),
   (image_classification_amended true none "https://y.com/f.pdf").2 (by decide)⟩

/-- C9: the acquisition dispatch for a kept image URL.  `.svg` is acquired
by browser screenshot only; `.png`, `.jpg` and `.jpeg` by direct download
only (no screenshot fallback, whatever the download outcome); every other
extension tries a download and falls back to a screenshot only when the
download fails. -/
theorem acquisition_dispatch (url : String) (downloadOk : Bool) :
    (strEndsWith (lowerStr url) ".svg" = true →
      acquisition_steps url downloadOk = [AcqStep.screenshot]) ∧
    ((strEndsWith (lowerStr url) ".png" = true ∨ strEndsWith (lowerStr url) ".jpg" = true ∨
        strEndsWith (lowerStr url) ".jpeg" = true) →
      acquisition_steps url downloadOk = [AcqStep.download]) ∧
    (strEndsWith (lowerStr url) ".svg" = false → strEndsWith (lowerStr url) ".png" = false →
      strEndsWith (lowerStr url) ".jpg" = false → strEndsWith (lowerStr url) ".jpeg" = false →
      acquisition_steps url downloadOk =
        if downloadOk then [AcqStep.download]
        else [AcqStep.download, AcqStep.screenshot]) := by
  refine ⟨fun hsvg => ?_, fun hras => ?_, fun hsvg hpng hjpg hjpeg => ?_⟩
  · unfold acquisition_steps
    simp [hsvg]
  · have hsvg : strEndsWith (lowerStr url) ".svg" = false := by
      cases hs : strEndsWith (lowerStr url) ".svg"
      · rfl
      · exfalso
        rw [strEndsWith_iff] at hs
        rcases hras with h | h | h <;> rw [strEndsWith_iff] at h
        · exact absurd (suffix_eq_of_length hs h (by decide)) (by decide)
        · exact absurd (suffix_eq_of_length hs h (by decide)) (by decide)
        · have h4 : "jpeg".toList <:+ (lowerStr url).toList :=
            List.IsSuffix.trans ⟨['.'], rfl⟩ h
          exact absurd (suffix_eq_of_length hs h4 (by decide)) (by decide)
    rcases hras with h | h | h
    · unfold acquisition_steps
      simp [hsvg, h]
    · unfold acquisition_steps
      cases hpng : strEndsWith (lowerStr url) ".png" <;> simp [hsvg, hpng, h]
    · unfold acquisition_steps
      cases hpng : strEndsWith (lowerStr url) ".png" <;> simp [hsvg, hpng, h]
  · unfold acquisition_steps
    simp [hsvg, hpng, hjpg, hjpeg]

/-- Witness for C9 at three concrete URLs, one per dispatch branch. -/
theorem acquisition_dispatch_witness :
    acquisition_steps "https://x.com/pipe.svg" false = [AcqStep.screenshot] ∧
    acquisition_steps "https://x.com/pipe.JPG" false = [AcqStep.download] ∧
    acquisition_steps "https://x.com/pipe.webp" false =
      [AcqStep.download, AcqStep.screenshot] :=
  ⟨(acquisition_dispatch "https://x.com/pipe.svg" false).1 (by decide),
   (acquisition_dispatch "https://x.com/pipe.JPG" false).2.1 (Or.inr (Or.inl (by decide))),
   by
    have h := (acquisition_dispatch "https://x.com/pipe.webp" false).2.2
      (by decide) (by decide) (by decide) (by decide)
    simpa using h⟩

/-- Unfolding of `scrape_url` for the enhanced entry point. -/
theorem scrape_url_true_eq (env : ScrapeEnv) (company_name : String) :
    scrape_url env company_name true =
      match env.enhanced with
      | some markdown =>
        { markdown := markdown, attempts := 1,
          written := some (mdFileName company_name, markdown) }
      | none => { markdown := "", attempts := 1, written := none } := by
  rw [scrape_url]

/-- Unfolding of `scrape_url` for the fast entry point. -/
theorem scrape_url_false_eq (env : ScrapeEnv) (company_name : String) :
    scrape_url env company_name false =
      match env.fast with
      | some markdown =>
        if markdown.length < 500 || !has_pipeline_indicators markdown then
          { scrape_url env company_name true with
              attempts := (scrape_url env company_name true).attempts + 1 }
        else
          { markdown := markdown, attempts := 1,
            written := some (mdFileName company_name, markdown) }
      | none =>
        { scrape_url env company_name true with
            attempts := (scrape_url env company_name true).attempts + 1 } := by
  obtain ⟨fast, enhanced⟩ := env
  cases fast <;> cases enhanced <;> simp [scrape_url]

/-- C1: the fast entry point issues a second (enhanced) attempt exactly
when the fast attempt raised or returned markdown that is shorter than 500
characters or carries fewer than 3 indicator keywords; without a second
attempt it returns (and saves) the fast markdown unchanged, and with one
it returns the enhanced attempt's markdown — the empty string when that
attempt raised. -/
theorem scrape_retry_policy (env : ScrapeEnv) (company_name : String) :
    ((scrape_url env company_name false).attempts = 2 ↔
      fastLooksIncomplete env.fast = true) ∧
    (fastLooksIncomplete env.fast = false →
      ∃ md, env.fast = some md ∧
        scrape_url env company_name false =
          { markdown := md, attempts := 1,
            written := some (mdFileName company_name, md) }) ∧
    (fastLooksIncomplete env.fast = true →
      (scrape_url env company_name false).markdown = env.enhanced.getD "") := by
  obtain ⟨fast, enhanced⟩ := env
  cases fast with
  | none =>
    cases enhanced <;>
      simp [scrape_url_false_eq, scrape_url_true_eq, fastLooksIncomplete]
  | some md =>
    cases hinc : (decide (md.length < 500) || !has_pipeline_indicators md) <;>
      cases enhanced <;>
        simp [scrape_url_false_eq, scrape_url_true_eq, fastLooksIncomplete, hinc]

/-- Witness for C1: a short fast result escalates (2 attempts) and the
enhanced attempt's empty markdown is returned as-is. -/
theorem scrape_retry_policy_witness :
    fastLooksIncomplete (some "short page") = true ∧
    (scrape_url ⟨some "short page", some ""⟩ "Acme" false).attempts = 2 ∧
    (scrape_url ⟨some "short page", some ""⟩ "Acme" false).markdown = "" :=
  ⟨by decide,
   ((scrape_retry_policy ⟨some "short page", some ""⟩ "Acme").1).mpr (by decide),
   by
    have h := (scrape_retry_policy ⟨some "short page", some ""⟩ "Acme").2.2 (by decide)
    simpa using h⟩

/-- C6: at most 2 attempts are ever issued for one URL; the enhanced entry
point performs exactly one attempt (it never recurses), and when the
enhanced attempt raises or returns empty markdown the overall result is
empty text, with no further retry. -/
theorem scrape_attempt_bound (env : ScrapeEnv) (company_name : String)
    (wait_for_dynamic : Bool) :
    (scrape_url env company_name wait_for_dynamic).attempts ≤ 2 ∧
    (scrape_url env company_name true).attempts = 1 ∧
    ((env.enhanced = none ∨ env.enhanced = some "") →
      (scrape_url env company_name true).markdown = "") := by
  obtain ⟨fast, enhanced⟩ := env
  cases wait_for_dynamic with
  | true =>
    cases enhanced <;> simp [scrape_url_true_eq]
  | false =>
    cases fast with
    | none => cases enhanced <;> simp [scrape_url_false_eq, scrape_url_true_eq]
    | some md =>
      cases hinc : (decide (md.length < 500) || !has_pipeline_indicators md) <;>
        cases enhanced <;>
          simp [scrape_url_false_eq, scrape_url_true_eq, hinc]

/-- Witness for C6 with both attempts raising. -/
theorem scrape_attempt_bound_witness :
    (scrape_url ⟨none, none⟩ "Acme" false).attempts ≤ 2 ∧
    (scrape_url ⟨none, none⟩ "Acme" true).markdown = "" :=
  ⟨(scrape_attempt_bound ⟨none, none⟩ "Acme" false).1,
   (scrape_attempt_bound ⟨none, none⟩ "Acme" false).2.2 (Or.inl rfl)⟩

/-- C10: when the enhanced attempt returns markdown (even empty, even
failing the completeness heuristic), `scrape_url` writes it to
`data/<sanitized company>.md` and returns it; with empty markdown the
caller `process_company_async` then reports the URL as failed, so an
empty output file exists for a URL counted as failed. -/
theorem enhanced_write_even_empty (env : ScrapeEnv) (company_name : String) (md : String)
    (h : env.enhanced = some md) :
    scrape_url env company_name true =
      { markdown := md, attempts := 1,
        written := some (mdFileName company_name, md) } ∧
    (md = "" → process_company_async env company_name true = false) := by
  constructor
  · rw [scrape_url_true_eq, h]
  · intro hmd
    unfold process_company_async
    rw [scrape_url_true_eq, h, hmd]
    simp

/-- Witness for C10: an empty enhanced result is written to
`data/acme_bio.md` and the company is counted as failed. -/
theorem enhanced_write_even_empty_witness :
    scrape_url ⟨some "ignored", some ""⟩ "Acme Bio" true =
      { markdown := "", attempts := 1, written := some ("data/acme_bio.md", "") } ∧
    process_company_async ⟨some "ignored", some ""⟩ "Acme Bio" true = false :=
  ⟨((enhanced_write_even_empty ⟨some "ignored", some ""⟩ "Acme Bio" "" rfl).1).trans
     (by decide),
   (enhanced_write_even_empty ⟨some "ignored", some ""⟩ "Acme Bio" "" rfl).2 rfl⟩

/-- C3 counterexample: a download whose stream fails after one chunk makes
`download_pdf` report failure (`None`) while a partial PDF file remains on
disk — refuting the claim that a failed download leaves no partial output
file. -/
theorem download_pdf_partial_file :
    (download_pdf true
      (some { statusOk := true, contentType := "application/pdf",
              chunks := ["%PDF-1.4 partial"], streamError := true }) "Acme Bio").1 = none ∧
    (download_pdf true
      (some { statusOk := true, contentType := "application/pdf",
              chunks := ["%PDF-1.4 partial"], streamError := true }) "Acme Bio").2 =
      some "%PDF-1.4 partial" := by
  decide

/-- C3 amended: `scrape_url` writes a file only with the markdown of an
attempt that succeeded (so a run where every attempt raises leaves no
file), but `download_pdf` streams chunks to disk during the fetch: when
the GET or the status check fails no file is created, and otherwise the
file holds exactly the chunks received — also when the stream then fails,
in which case the function reports failure and the partial file stays. -/
theorem partial_write_amended (env : ScrapeEnv) (company_name : String)
    (wait_for_dynamic requestsAvailable : Bool) (get : Option GetResp) :
    ((scrape_url env company_name wait_for_dynamic).written = none ∨
      ∃ md, (scrape_url env company_name wait_for_dynamic).written =
          some (mdFileName company_name, md) ∧
        (scrape_url env company_name wait_for_dynamic).markdown = md ∧
        (env.fast = some md ∨ env.enhanced = some md)) ∧
    ((requestsAvailable = false ∨ get = none ∨
        (∃ r, get = some r ∧ r.statusOk = false)) →
      (download_pdf requestsAvailable get company_name).2 = none) ∧
    (∀ r, get = some r → r.statusOk = true → requestsAvailable = true →
      (download_pdf requestsAvailable get company_name).2 = some (String.join r.chunks) ∧
      ((download_pdf requestsAvailable get company_name).1 = none ↔
        r.streamError = true)) := by
  refine ⟨?_, ?_, ?_⟩
  · obtain ⟨fast, enhanced⟩ := env
    cases wait_for_dynamic with
    | true => cases enhanced <;> simp [scrape_url_true_eq]
    | false =>
      cases fast with
      | none => cases enhanced <;> simp [scrape_url_false_eq, scrape_url_true_eq]
      | some md =>
        cases hinc : (decide (md.length < 500) || !has_pipeline_indicators md) <;>
          cases enhanced <;>
            simp [scrape_url_false_eq, scrape_url_true_eq, hinc]
  · rintro (h | h | ⟨r, rfl, hr⟩)
    · simp [download_pdf, h]
    · cases requestsAvailable <;> simp [download_pdf, h]
    · cases requestsAvailable <;> simp [download_pdf, hr]
  · rintro r rfl hok rfl
    cases hs : r.streamError <;> simp [download_pdf, hok, hs]

/-- Witness for C3 amended: both scrape attempts raising leaves no file; a
clean two-chunk download writes the full content and reports success. -/
theorem partial_write_amended_witness :
    (scrape_url ⟨none, none⟩ "Acme" false).written = none ∧
    (download_pdf true
      (some { statusOk := true, contentType := "application/pdf",
              chunks := ["ab", "cd"], streamError := false }) "Acme").2 = some "abcd" := by
  constructor
  · have h := (partial_write_amended ⟨none, none⟩ "Acme" false true none).1
    rcases h with h | ⟨md, _, _, hmd | hmd⟩
    · exact h
    · exact absurd hmd (by simp)
    · exact absurd hmd (by simp)
  · have h := (partial_write_amended ⟨none, none⟩ "Acme" false true
      (some { statusOk := true, contentType := "application/pdf",
              chunks := ["ab", "cd"], streamError := false })).2.2
      { statusOk := true, contentType := "application/pdf",
        chunks := ["ab", "cd"], streamError := false } rfl rfl rfl
    exact h.1.trans (by decide)

/-- C7: a decorative keyword in the URL or the alt text makes
`is_likely_pipeline_image` skip the candidate, whatever positive signals
are present (the skip check runs before every keep rule); on the spec's
example document only the SVG candidate survives, the logo is filtered
out. -/
theorem decorative_skip_precedence :
    (∀ url alt_text p, p ∈ skip_patterns →
      (strContains (lowerStr url) p = true ∨ strContains (lowerStr alt_text) p = true) →
      is_likely_pipeline_image url alt_text = false) ∧
    find_images_in_markdown
        "![logo](https://x.com/logo.png)\n![Pipeline Chart](https://x.com/pipeline-2025-08.svg)" =
      [("https://x.com/pipeline-2025-08.svg", "Pipeline Chart")] := by
  constructor
  · intro url alt_text p hp hc
    unfold is_likely_pipeline_image
    have hany : skip_patterns.any
        (fun q => strContains (lowerStr url) q || strContains (lowerStr alt_text) q) = true :=
      List.any_eq_true.mpr ⟨p, hp, by rcases hc with h | h <;> simp [h]⟩
    simp [hany]
  · set_option maxRecDepth 4000 in decide

/-- Witness for C7: a URL carrying both the decorative keyword `logo` and
the positive keyword `pipeline` is still skipped. -/
theorem decorative_skip_precedence_witness :
    "logo" ∈ skip_patterns ∧
    strContains (lowerStr "https://x.com/pipeline-logo.svg") "logo" = true ∧
    is_likely_pipeline_image "https://x.com/pipeline-logo.svg" "Pipeline Chart" = false :=
  ⟨by decide, by decide,
   decorative_skip_precedence.1 "https://x.com/pipeline-logo.svg" "Pipeline Chart" "logo"
     (by decide) (Or.inl (by decide))⟩

/-- C2 counterexample: the markdown-syntax pass performs no
already-collected check, so a document repeating the same image link
yields the same URL twice — refuting the claim that
`find_images_in_markdown` never returns two entries with the same URL. -/
theorem find_images_duplicate_url :
    find_images_in_markdown
        "![a](https://x.com/pipeline.png)\n![a](https://x.com/pipeline.png)" =
      [("https://x.com/pipeline.png", "a"), ("https://x.com/pipeline.png", "a")] ∧
    ¬ ((find_images_in_markdown
        "![a](https://x.com/pipeline.png)\n![a](https://x.com/pipeline.png)").map
        Prod.fst).Nodup := by
  set_option maxRecDepth 4000 in decide

/-- Folding a step function that either keeps the accumulator or appends
its candidate — and appends only when the candidate's URL is absent from
the accumulator — extends the accumulator with an order-preserving
selection of the candidates and never introduces a duplicate URL. -/
theorem foldl_guarded_append {α : Type} (e : α → String × String)
    (step : List (String × String) → α → List (String × String))
    (hstep : ∀ acc x, step acc x = acc ∨
      (step acc x = acc ++ [e x] ∧ ¬ (e x).1 ∈ acc.map Prod.fst))
    (cands : List α) :
    ∀ acc : List (String × String),
      ∃ l, List.foldl step acc cands = acc ++ l ∧
        List.Sublist l (cands.map e) ∧
        ((acc.map Prod.fst).Nodup → ((acc ++ l).map Prod.fst).Nodup) := by
  induction cands with
  | nil => exact fun acc => ⟨[], by simp, by simp, by simp⟩
  | cons x cs ih =>
    intro acc
    rcases hstep acc x with h | ⟨h, hmem⟩
    · obtain ⟨l, hl, hs, hnd⟩ := ih acc
      refine ⟨l, ?_, ?_, hnd⟩
      · rw [List.foldl_cons, h]; exact hl
      · exact hs.trans (List.sublist_cons_self (e x) (cs.map e))
    · obtain ⟨l, hl, hs, hnd⟩ := ih (acc ++ [e x])
      refine ⟨e x :: l, ?_, List.Sublist.cons₂ (e x) hs, ?_⟩
      · rw [List.foldl_cons, h, hl, List.append_assoc]; simp
      · intro hnda
        have hnd1 : ((acc ++ [e x]).map Prod.fst).Nodup := by
          rw [List.map_append]
          refine List.Nodup.append hnda (by simp) ?_
          intro a ha hb
          simp only [List.map_cons, List.map_nil, List.mem_singleton] at hb
          exact hmem (hb ▸ ha)
        have hres := hnd hnd1
        rwa [List.append_assoc] at hres

/-- The pattern-2 step appends only candidates whose URL is new. -/
theorem pass2Step_guarded : ∀ (acc : List (String × String)) (url : String),
    pass2Step acc url = acc ∨
      (pass2Step acc url = acc ++ [(url, "")] ∧ ¬ url ∈ acc.map Prod.fst) := by
  intro acc url
  unfold pass2Step
  cases h1 : (url != "" && !strStartsWith url "data:") with
  | false => left; simp [h1]
  | true =>
    cases h2 : acc.any (fun e => e.1 == url) with
    | true => left; simp [h1, h2]
    | false =>
      cases h3 : is_likely_pipeline_image url "" with
      | false => left; simp [h1, h2, h3]
      | true =>
        right
        refine ⟨by simp [h1, h2, h3], ?_⟩
        intro hmem
        rw [List.any_eq_false] at h2
        obtain ⟨p, hp, hfst⟩ := List.mem_map.mp hmem
        exact h2 p hp (by simp [hfst])

/-- The pattern-3 step appends only candidates whose URL is new. -/
theorem pass3Step_guarded : ∀ (acc : List (String × String)) (url : String),
    pass3Step acc url = acc ∨
      (pass3Step acc url = acc ++ [(url, "")] ∧ ¬ url ∈ acc.map Prod.fst) := by
  intro acc url
  unfold pass3Step
  cases h2 : acc.any (fun e => e.1 == url) with
  | true => left; simp [h2]
  | false =>
    cases h3 : is_likely_pipeline_image url "" with
    | false => left; simp [h2, h3]
    | true =>
      right
      refine ⟨by simp [h2, h3], ?_⟩
      intro hmem
      rw [List.any_eq_false] at h2
      obtain ⟨p, hp, hfst⟩ := List.mem_map.mp hmem
      exact h2 p hp (by simp [hfst])

/-- C2 amended: whenever the markdown-syntax pass itself collects no
duplicate URL, the final result has pairwise-distinct URLs — the HTML and
bare-URL passes never add a URL already present — and the result always
extends the pass-1 list with order-preserving selections of the pass-2 and
pass-3 candidates, so first-seen order is preserved across the passes. -/
theorem find_images_dedup_amended (markdown : String)
    (h : ((pass1Images markdown).map Prod.fst).Nodup) :
    ((find_images_in_markdown markdown).map Prod.fst).Nodup ∧
    ∃ l2 l3,
      find_images_in_markdown markdown = pass1Images markdown ++ l2 ++ l3 ∧
      List.Sublist l2 ((scanImgTags markdown.toList.length markdown.toList).map
        (fun url => (url, ""))) ∧
      List.Sublist l3 ((scanBareImageUrls markdown.toList.length markdown.toList).map
        (fun url => (url, ""))) := by
  obtain ⟨l2, hl2, hs2, hnd2⟩ :=
    foldl_guarded_append (fun url => (url, "")) pass2Step pass2Step_guarded
      (scanImgTags markdown.toList.length markdown.toList) (pass1Images markdown)
  obtain ⟨l3, hl3, hs3, hnd3⟩ :=
    foldl_guarded_append (fun url => (url, "")) pass3Step pass3Step_guarded
      (scanBareImageUrls markdown.toList.length markdown.toList)
      (pass1Images markdown ++ l2)
  have hfind : find_images_in_markdown markdown = (pass1Images markdown ++ l2) ++ l3 := by
    show List.foldl pass3Step
        (List.foldl pass2Step (pass1Images markdown)
          (scanImgTags markdown.toList.length markdown.toList))
        (scanBareImageUrls markdown.toList.length markdown.toList) =
      (pass1Images markdown ++ l2) ++ l3
    rw [hl2, hl3]
  refine ⟨?_, l2, l3, by rw [hfind, List.append_assoc], hs2, hs3⟩
  rw [hfind]
  exact hnd3 (hnd2 h)

/-- Witness for C2 amended at a concrete document whose pass-1 URLs are
distinct. -/
theorem find_images_dedup_amended_witness :
    ((pass1Images "![Pipeline Chart](https://x.com/pipeline-2025-08.svg)").map
      Prod.fst).Nodup ∧
    ((find_images_in_markdown "![Pipeline Chart](https://x.com/pipeline-2025-08.svg)").map
      Prod.fst).Nodup :=
  ⟨by set_option maxRecDepth 2000 in decide,
   (find_images_dedup_amended "![Pipeline Chart](https://x.com/pipeline-2025-08.svg)"
     (by set_option maxRecDepth 2000 in decide)).1⟩

end Scraper
